import Mathlib

/-!
Verification of the Search Orchestration Engine of the async-paper-retriever
repository, as a shallow embedding of `backend/main.py` and its collaborator
modules (`utils/models.py`, `utils/rerank.py`).

Conventions of the embedding:
* Python floats (engine scores, rerank scores) are modelled as rationals `ℚ`;
  all claims settled here are order-theoretic, never about rounding.
* Fallible collaborator calls (OpenSearch, the SageMaker embedder) are
  modelled as `Option`-valued oracles in an `Env` record: `none` models a
  raised exception, absorbed by the orchestrator's `try`/`except` blocks.
* Python `list.sort(key=score, reverse=True)` (a stable sort) is modelled by
  `List.insertionSort` with the relation `b.score ≤ a.score`, which is a
  stable descending sort.
* Python `list(set(xs))` is modelled by `xs.dedup`; CPython's set iteration
  order is unspecified, and no claim depends on the order of that list.
-/

namespace APRetriever

/-- `utils/models.py` `SearchRequest` (pydantic: `query` min_length 1,
`page ≥ 1`, `1 ≤ pageSize ≤ 10000`, `searchType` default "keyword"). -/
structure SearchRequest where
  query : String
  page : Nat
  pageSize : Nat
  searchType : String
  enableLlm : Bool
deriving Repr, DecidableEq

/-- `utils/models.py` `SearchResult`. -/
structure SearchResult where
  id : String
  title : String
  keywords : List String
  abstract : String
  score : ℚ
  source : Option String := none
  matched_keywords : Option (List String) := none
  relevance_reason : Option String := none
deriving Repr, DecidableEq

/-- `utils/models.py` `SearchResponse`. -/
structure SearchResponse where
  total : Nat
  results : List SearchResult
  searchType : String
  rewrittenTerms : Option (List String)
  search_id : Option String := none
deriving Repr, DecidableEq

/-! ## String helpers (Python `in`, `str.lower`, `' '.join`) -/

/-- Python substring test `needle in hay` on character lists:
true iff `needle` occurs contiguously in `hay` (an empty needle matches). -/
def subList (needle : List Char) : List Char → Bool
  | [] => needle.isPrefixOf ([] : List Char)
  | c :: cs => needle.isPrefixOf (c :: cs) || subList needle cs

/-- Python `needle in hay` on strings. -/
def strContains (hay needle : String) : Bool :=
  subList needle.data hay.data

/-- Python `str.lower()`, as the per-character case mapping (ASCII; the
properties proved here only use it for exact substring checks). -/
def lowerStr (s : String) : String :=
  String.mk (s.data.map Char.toLower)

/-! ## `extract_matched_keywords` (main.py 113-120)

Python runs `re.findall(r'<em>(.*?)</em>', text)` over every highlight
fragment and deduplicates the concatenation with `list(set(...))`.
The regex semantics implemented below: scan left to right; at an
occurrence of `<em>`, capture the shortest following run of
non-newline characters terminated by `</em>` and resume after the
closing tag; if no such closing tag exists before a newline, advance
one character and keep scanning.  The `fuel` argument is only a
termination device: it starts at the character count and every step
consumes at least one character, so the fuel never runs out. -/

def openTag : List Char := ['<', 'e', 'm', '>']

def closeTag : List Char := ['<', '/', 'e', 'm', '>']

/-- Capture the shortest non-newline run terminated by `</em>`:
returns the captured characters and the characters after the closing tag. -/
def takeUntilClose : List Char → Option (List Char × List Char)
  | [] => none
  | c :: cs =>
    if closeTag.isPrefixOf (c :: cs) then some ([], (c :: cs).drop 5)
    else if c = '\n' then none
    else (takeUntilClose cs).map (fun p => (c :: p.1, p.2))

def findEmAux : Nat → List Char → List String
  | 0, _ => []
  | _ + 1, [] => []
  | fuel + 1, c :: cs =>
    if openTag.isPrefixOf (c :: cs) then
      match takeUntilClose ((c :: cs).drop 4) with
      | some (cap, rest) => String.mk cap :: findEmAux fuel rest
      | none => findEmAux fuel cs
    else findEmAux fuel cs

/-- `re.findall(r'<em>(.*?)</em>', s)`. -/
def findEm (s : String) : List String :=
  findEmAux s.data.length s.data

/-- A highlight payload: OpenSearch's `hit['highlight']` dict,
field name mapped to a list of highlighted fragments. -/
abbrev Highlight := List (String × List String)

/-- `AsyncPaperSearch.extract_matched_keywords`: collect all `<em>`-wrapped
terms of every fragment of every field, deduplicated (`list(set(...))`). -/
def extract_matched_keywords (highlight : Highlight) : List String :=
  ((highlight.flatMap (fun p => p.2)).flatMap (fun t => findEm t)).dedup

/-! ## Engine hits -/

/-- One OpenSearch hit, as consumed by the orchestrator: the `_source`
fields, the `_score`, and the optional `highlight` section. -/
structure Hit where
  id : String
  title : String
  abstract : String
  keywords : List String
  score : ℚ
  highlight : Highlight := []
deriving Repr, DecidableEq

/-- The slice of an OpenSearch response the orchestrator reads:
`hits.hits` and `hits.total.value`. -/
structure EngineResponse where
  hits : List Hit
  total : Nat
deriving Repr, DecidableEq

/-- `AsyncPaperSearch.find_matched_keywords` (main.py 350-359): keep the
query terms whose lowercase form occurs in the lowercase title, the
space-joined keywords, or the abstract of the hit. -/
def find_matched_keywords (keywords : List String) (hit : Hit) : List String :=
  keywords.filter (fun keyword =>
    strContains (lowerStr hit.title) (lowerStr keyword) ||
    strContains (lowerStr (String.intercalate " " hit.keywords)) (lowerStr keyword) ||
    strContains (lowerStr hit.abstract) (lowerStr keyword))

/-! ## `evaluate_relevance` (main.py 122-196) -/

/-- Outcome of the JSON-extraction stage applied to the LLM's reply text:
either no `<json>`/code-fence block was found, or `json.loads` failed,
or a JSON object was parsed, with its optional `is_relevant` and
`reason` members. -/
inductive JsonExtract where
  | noJson
  | parseFail
  | parsed (is_relevant : Option Bool) (reason : Option String)
deriving Repr, DecidableEq

/-- Outcome of one LLM relevance call: an exception anywhere in the call
(network, API), or a reply whose JSON extraction behaved as recorded. -/
inductive LLMOutcome where
  | callError (msg : String)
  | reply (extract : JsonExtract)
deriving Repr, DecidableEq

/-- `AsyncPaperSearch.evaluate_relevance`.  `apiKeyConfigured` models the
truthiness of `openai.api_key`; `llm` is the oracle for the remote call. -/
def evaluate_relevance (apiKeyConfigured : Bool) (llm : String → String → LLMOutcome)
    (query text : String) (enable_llm : Bool) : Bool × String :=
  if !enable_llm then (true, "未启用LLM评估")
  else if !apiKeyConfigured then (true, "未配置OpenAI API")
  else
    match llm query text with
    | .callError msg => (true, "评估出错: " ++ msg)
    | .reply .noJson => (true, "JSON内容解析失败")
    | .reply .parseFail => (true, "JSON解析失败")
    | .reply (.parsed ir reason) => (ir.getD true, reason.getD "解析评估原因失败")

/-! ## Query descriptors (main.py 198-348, 614-631)

The OpenSearch JSON bodies the orchestrator assembles, modelled as
structured data.  Field names follow the JSON keys (`from` is a Lean
keyword, rendered `from_`). -/

/-- A leaf clause of a boolean query: a `match_phrase` on one field with an
optional boost, a `knn` sub-query, or a `terms` filter over the `id` field. -/
inductive QueryClause where
  | matchPhrase (field : String) (query : String) (boost : Option ℚ)
  | knn (vector : List ℚ) (k : Nat)
  | termsId (ids : List String)
deriving Repr, DecidableEq

/-- The phrase clauses shared by the keyword and hybrid builders: for each
term, `title` boosted 5, `keywords` boosted 10, `abstract` boosted 2,
in that textual order (main.py 203-230 and 302-329). -/
def shouldClauses (query_terms : List String) : List QueryClause :=
  query_terms.flatMap (fun keyword =>
    [QueryClause.matchPhrase "title" keyword (some 5),
     QueryClause.matchPhrase "keywords" keyword (some 10),
     QueryClause.matchPhrase "abstract" keyword (some 2)])

/-- The unboosted exclusion clauses of the vector and supplement queries:
for each term, a `match_phrase` on `title`, `keywords`, `abstract`
(main.py 270-276 and 607-612). -/
def mustNotClauses (query_terms : List String) : List QueryClause :=
  query_terms.flatMap (fun keyword =>
    [QueryClause.matchPhrase "title" keyword none,
     QueryClause.matchPhrase "keywords" keyword none,
     QueryClause.matchPhrase "abstract" keyword none])

/-- Descriptor built by `build_keyword_search_query`. -/
structure KeywordQuery where
  from_ : Nat
  size : Nat
  should : List QueryClause
  minimum_should_match : Nat
  source_fields : List String
  highlight_fields : List String
deriving Repr, DecidableEq

/-- `AsyncPaperSearch.build_keyword_search_query` (main.py 297-348). -/
def build_keyword_search_query (query_terms : List String) (page page_size : Nat) :
    KeywordQuery :=
  { from_ := (page - 1) * page_size
    size := page_size
    should := shouldClauses query_terms
    minimum_should_match := 1
    source_fields := ["id", "title", "abstract", "keywords"]
    highlight_fields := ["title", "abstract", "keywords"] }

/-- Descriptor built by `build_vector_search_query`. -/
structure VectorQuery where
  from_ : Nat
  size : Nat
  must : QueryClause
  must_not : List QueryClause
  source_fields : List String
deriving Repr, DecidableEq

/-- `AsyncPaperSearch.build_vector_search_query` (main.py 265-295). -/
def build_vector_search_query (query_embedding : List ℚ) (query_terms : List String)
    (page page_size : Nat) : VectorQuery :=
  { from_ := (page - 1) * page_size
    size := page_size
    must := QueryClause.knn query_embedding page_size
    must_not := mustNotClauses query_terms
    source_fields := ["id", "title", "abstract", "keywords"] }

/-- Descriptor built by `build_hybrid_search_query`: a `hybrid` query with a
boolean sub-query and a `knn` sub-query, plus highlighting. -/
structure HybridQuery where
  from_ : Nat
  size : Nat
  should : List QueryClause
  minimum_should_match : Nat
  knn : QueryClause
  source_fields : List String
  highlight_fields : List String
deriving Repr, DecidableEq

/-- `AsyncPaperSearch.build_hybrid_search_query` (main.py 198-263). -/
def build_hybrid_search_query (query_terms : List String) (query_embedding : List ℚ)
    (page page_size : Nat) : HybridQuery :=
  { from_ := (page - 1) * page_size
    size := page_size
    should := shouldClauses query_terms
    minimum_should_match := 1
    knn := QueryClause.knn query_embedding page_size
    source_fields := ["id", "title", "abstract", "keywords"]
    highlight_fields := ["title", "abstract", "keywords"] }

/-- Descriptor built inline by `_supplement_with_vector_search`
(main.py 614-631): no `from`, `size = k = remaining`, and a `must_not`
that also excludes the already-seen document ids. -/
structure SupplementQuery where
  size : Nat
  must : QueryClause
  must_not : List QueryClause
  source_fields : List String
deriving Repr, DecidableEq

def build_supplement_query (query_embedding : List ℚ) (query_terms : List String)
    (seen_ids : List String) (remaining_size : Nat) : SupplementQuery :=
  { size := remaining_size
    must := QueryClause.knn query_embedding remaining_size
    must_not := QueryClause.termsId seen_ids :: mustNotClauses query_terms
    source_fields := ["id", "title", "abstract", "keywords"] }

/-! ## Reranker (`utils/rerank.py` and main.py 674-695) -/

/-- One element of `BGEReranker.rerank`'s return value: a passage text
paired with its score. -/
structure RerankItem where
  text : String
  score : ℚ
deriving Repr, DecidableEq

/-- Outcome of the SageMaker rerank call: an exception, a response body
without a `data` member, or the extracted score list (one score per
`data` item, in response order). -/
inductive RerankOutcome where
  | error (msg : String)
  | badFormat
  | scores (s : List ℚ)
deriving Repr, DecidableEq

/-- Descending-by-score relation used for every Python
`sort(key=lambda x: x.score, reverse=True)` in this development. -/
def scoreGE (a b : SearchResult) : Prop := b.score ≤ a.score

instance : DecidableRel scoreGE := fun a b => inferInstanceAs (Decidable (b.score ≤ a.score))

instance : IsTotal SearchResult scoreGE := ⟨fun a b => le_total b.score a.score⟩

instance : IsTrans SearchResult scoreGE := ⟨fun _ _ _ h1 h2 => le_trans h2 h1⟩

/-- Stable descending sort by `score` (Python's stable `list.sort` with
`reverse=True`). -/
def sortByScoreDesc (l : List SearchResult) : List SearchResult :=
  l.insertionSort scoreGE

/-- Same relation on `RerankItem` for `utils/rerank.py` line 51. -/
def itemGE (a b : RerankItem) : Prop := b.score ≤ a.score

instance : DecidableRel itemGE := fun a b => inferInstanceAs (Decidable (b.score ≤ a.score))

instance : IsTotal RerankItem itemGE := ⟨fun a b => le_total b.score a.score⟩

instance : IsTrans RerankItem itemGE := ⟨fun _ _ _ h1 h2 => le_trans h2 h1⟩

/-- `BGEReranker.rerank` (`utils/rerank.py` 13-63): on an empty passage
list or any failure return `[]`; otherwise zip the passages with the
returned scores (`zip` truncates to the shorter list), sort the pairs by
descending score, and truncate to `top_k` when that argument is truthy. -/
def BGEReranker_rerank (svc : RerankOutcome) (passages : List String)
    (top_k : Option Nat) : List RerankItem :=
  if passages = [] then []
  else
    match svc with
    | .error _ => []
    | .badFormat => []
    | .scores s =>
      let results := (passages.zip s).map (fun p => { text := p.1, score := p.2 })
      let sorted := results.insertionSort itemGE
      match top_k with
      | none => sorted
      | some k => if k = 0 then sorted else sorted.take k

/-- In-place score overwrite of main.py 685-687: the i-th result's score
becomes the i-th rerank score, for `i < min` of the two lengths. -/
def overwriteScores : List SearchResult → List ℚ → List SearchResult
  | rs, [] => rs
  | [], _ :: _ => []
  | r :: rs, s :: ss => { r with score := s } :: overwriteScores rs ss

/-- `AsyncPaperSearch._rerank_results` (main.py 674-695): call the
reranker on the result titles; if it returned a non-empty list, overwrite
the scores positionally and re-sort descending, otherwise (failure or no
scores) return the results unchanged.  The surrounding `try`/`except`
never fires in this model because `BGEReranker.rerank` already absorbs
its own failures into `[]`. -/
def rerank_results (rerankSvc : String → List String → RerankOutcome)
    (query : String) (results : List SearchResult) : List SearchResult :=
  let titles := results.map (fun r => r.title)
  let rr := BGEReranker_rerank (rerankSvc query titles) titles none
  if rr = [] then results
  else sortByScoreDesc (overwriteScores results (rr.map (fun x => x.score)))

/-! ## The orchestrator's environment

`AsyncPaperSearch` holds collaborator handles constructed once at process
start; each is modelled as a capability flag plus an oracle.  `Option`
results model calls that may raise: `none` is an exception, absorbed by
the enclosing `try`/`except` of `search`. -/

structure Env where
  /-- `self.opensearch_client is not None`. -/
  opensearchAvailable : Bool
  /-- `self.embedder is not None`. -/
  embedderAvailable : Bool
  /-- `settings.ENABLE_RERANK and self.reranker` (main.py 446, 565). -/
  rerankerAvailable : Bool
  /-- Truthiness of `openai.api_key`. -/
  apiKeyConfigured : Bool
  /-- `urllib.parse.unquote`; the `try`/`except` at main.py 369-375 falls
  back to the raw query, so decoding is total. -/
  decode : String → String
  /-- `expand_query` (`utils/query_expansion.py`): never raises, never
  returns an empty list (it falls back to the original query). -/
  expand : String → List String
  /-- `self.embedder.get_embeddings(text)[0].tolist()`; `none` models an
  exception anywhere in the call. -/
  embed : String → Option (List ℚ)
  /-- `opensearch_client.search` on a keyword descriptor. -/
  engineKeyword : KeywordQuery → Option EngineResponse
  /-- `opensearch_client.search` on a vector descriptor. -/
  engineVector : VectorQuery → Option EngineResponse
  /-- `opensearch_client.search` on a hybrid descriptor (with the
  `nlp-search-pipeline` search pipeline). -/
  engineHybrid : HybridQuery → Option EngineResponse
  /-- `opensearch_client.search` on the supplementation descriptor. -/
  engineSupplement : SupplementQuery → Option EngineResponse
  /-- The LLM relevance call of `evaluate_relevance`, keyed by
  (query, evaluation text). -/
  llm : String → String → LLMOutcome
  /-- The SageMaker rerank endpoint, keyed by (query, passages): the
  outcome consumed by `BGEReranker.rerank`. -/
  rerankSvc : String → List String → RerankOutcome
  /-- `self.cache.save_search_result(...)`: catches internally, never
  raises; `none` covers both an absent cache and a failed save. -/
  cacheSave : String → String → SearchResponse → Bool → Option String

/-- The relevance evaluation as run by the orchestrator branches. -/
def envEval (env : Env) (query text : String) (enable_llm : Bool) : Bool × String :=
  evaluate_relevance env.apiKeyConfigured env.llm query text enable_llm

/-- The evaluation text built at main.py 488 and 644. -/
def evalText (hit : Hit) : String :=
  "标题：" ++ hit.title ++ "\n摘要：" ++ hit.abstract

/-- Best-effort cache write shared by the three branches (e.g. main.py
457-466): attach the returned id when the save yields a truthy string. -/
def attachSearchId (env : Env) (query search_type : String) (enable_llm : Bool)
    (resp : SearchResponse) : SearchResponse :=
  match env.cacheSave query search_type resp enable_llm with
  | some id => if id = "" then resp else { resp with search_id := some id }
  | none => resp

/-- The empty response produced for blank queries and for every absorbed
failure (main.py 377-383 and 398-405). -/
def emptyResponse (searchType : String) : SearchResponse :=
  { total := 0, results := [], searchType := searchType, rewrittenTerms := none }

/-! ## Strategy branches -/

/-- Result construction of the keyword branch (main.py 548-557). -/
def mkKeywordResult (query_terms : List String) (hit : Hit) : SearchResult :=
  { id := hit.id, title := hit.title, keywords := hit.keywords
    abstract := hit.abstract, score := hit.score, source := some "keyword"
    matched_keywords :=
      some (find_matched_keywords query_terms hit ++ extract_matched_keywords hit.highlight)
    relevance_reason := none }

/-- Result construction of the hybrid branch (main.py 434-442). -/
def mkHybridResult (query_terms : List String) (hit : Hit) : SearchResult :=
  { id := hit.id, title := hit.title, keywords := hit.keywords
    abstract := hit.abstract, score := hit.score, source := some "hybrid"
    matched_keywords :=
      some (find_matched_keywords query_terms hit ++ extract_matched_keywords hit.highlight)
    relevance_reason := none }

/-- Result construction of the vector branch and of supplementation
(main.py 493-501 and 649-657). -/
def mkVectorResult (hit : Hit) (reason : String) : SearchResult :=
  { id := hit.id, title := hit.title, keywords := hit.keywords
    abstract := hit.abstract, score := hit.score, source := some "vector"
    matched_keywords := none, relevance_reason := some reason }

/-- `AsyncPaperSearch._vector_search` (main.py 470-525).  The Python loop
appends `mkVectorResult hit reason` exactly when `evaluate_relevance`
judged the hit relevant, with `reason` from that same call; as the
evaluation is a pure function of the oracle it is written as a filter
followed by a map. -/
def vector_search (env : Env) (query : String) (query_terms : List String)
    (request : SearchRequest) : Except String SearchResponse :=
  if !env.embedderAvailable then .error "嵌入服务不可用，无法执行向量搜索"
  else
    match env.embed query with
    | none => .error "embedding call failed"
    | some query_embedding =>
      match env.engineVector
          (build_vector_search_query query_embedding query_terms request.page request.pageSize) with
      | none => .error "opensearch call failed"
      | some response =>
        let results :=
          (response.hits.filter
            (fun hit => (envEval env query (evalText hit) request.enableLlm).1)).map
            (fun hit => mkVectorResult hit (envEval env query (evalText hit) request.enableLlm).2)
        .ok (attachSearchId env query request.searchType request.enableLlm
          { total := results.length, results := results
            searchType := request.searchType, rewrittenTerms := some query_terms })

/-- `AsyncPaperSearch._hybrid_search` (main.py 407-468). -/
def hybrid_search (env : Env) (query : String) (query_terms : List String)
    (request : SearchRequest) : Except String SearchResponse :=
  if !env.embedderAvailable then .error "嵌入服务不可用，无法执行混合搜索"
  else
    match env.embed query with
    | none => .error "embedding call failed"
    | some query_embedding =>
      match env.engineHybrid
          (build_hybrid_search_query query_terms query_embedding request.page request.pageSize) with
      | none => .error "opensearch call failed"
      | some response =>
        let results := response.hits.map (mkHybridResult query_terms)
        let results :=
          if env.rerankerAvailable && !results.isEmpty then
            rerank_results env.rerankSvc query results
          else results
        .ok (attachSearchId env query request.searchType request.enableLlm
          { total := response.total, results := results
            searchType := request.searchType, rewrittenTerms := some query_terms })

/-- The vector candidates kept by supplementation (main.py 640-660): hits
of the supplement query that are unseen, score at least 0.1, and pass the
relevance evaluation; each becomes a `source="vector"` result carrying
the evaluation reason. -/
def supplementCandidates (env : Env) (query : String) (seen_ids : List String)
    (enable_llm : Bool) (hits : List Hit) : List SearchResult :=
  (hits.filter (fun hit =>
      !seen_ids.contains hit.id && decide (mkRat 1 10 ≤ hit.score) &&
      (envEval env query (evalText hit) enable_llm).1)).map
    (fun hit => mkVectorResult hit (envEval env query (evalText hit) enable_llm).2)

/-- `AsyncPaperSearch._supplement_with_vector_search` (main.py 589-672). -/
def supplement_with_vector_search (env : Env) (query : String)
    (query_terms : List String) (results : List SearchResult)
    (seen_ids : List String) (request : SearchRequest) :
    Except String (List SearchResult) :=
  let remaining_size := 10000 - results.length
  let combined_query := String.intercalate " " (query :: query_terms)
  match env.embed combined_query with
  | none => .error "embedding call failed"
  | some query_embedding =>
    match env.engineSupplement
        (build_supplement_query query_embedding query_terms seen_ids remaining_size) with
    | none => .error "opensearch call failed"
    | some vector_response =>
      let vector_results :=
        supplementCandidates env query seen_ids request.enableLlm vector_response.hits
      .ok (sortByScoreDesc (results ++ vector_results))

/-- `AsyncPaperSearch._keyword_search` (main.py 527-587).  `seen_ids` is a
Python set filled in hit order; it is modelled as the deduplicated id
list (set iteration order is unspecified, and no property proved here
depends on the order of the ids inside the supplement query). -/
def keyword_search (env : Env) (query : String) (query_terms : List String)
    (request : SearchRequest) : Except String SearchResponse :=
  match env.engineKeyword
      (build_keyword_search_query query_terms request.page request.pageSize) with
  | none => .error "opensearch call failed"
  | some response =>
    let results := response.hits.map (mkKeywordResult query_terms)
    let seen_ids := (response.hits.map (fun h => h.id)).dedup
    let supplemented :=
      if results.length < 10000 && env.embedderAvailable then
        supplement_with_vector_search env query query_terms results seen_ids request
      else .ok results
    match supplemented with
    | .error e => .error e
    | .ok results =>
      let results :=
        if env.rerankerAvailable && !results.isEmpty then
          rerank_results env.rerankSvc query results
        else results
      .ok (attachSearchId env query request.searchType request.enableLlm
        { total := results.length, results := results
          searchType := request.searchType, rewrittenTerms := some query_terms })

/-- The body of `AsyncPaperSearch.search`'s `try` block (main.py 363-396):
OpenSearch availability check, URL decoding, blank-query short-circuit,
query expansion, strategy dispatch (any `searchType` other than
`hybrid`/`vector` falls through to the keyword branch). -/
def search_body (env : Env) (request : SearchRequest) : Except String SearchResponse :=
  if !env.opensearchAvailable then .error "OpenSearch服务不可用，请检查配置"
  else
    let query := env.decode request.query
    if query = "" then .ok (emptyResponse request.searchType)
    else
      let query_terms := env.expand query
      if request.searchType = "hybrid" then hybrid_search env query query_terms request
      else if request.searchType = "vector" then vector_search env query query_terms request
      else keyword_search env query query_terms request

/-- `AsyncPaperSearch.search` (main.py 361-405): the `except` clause turns
every internal failure into the empty response carrying the request's
`searchType` and no rewritten terms. -/
def search (env : Env) (request : SearchRequest) : SearchResponse :=
  match search_body env request with
  | .ok resp => resp
  | .error _ => emptyResponse request.searchType

/-! ## Invariant predicates -/

/-- The spec's ordering invariant: scores are non-increasing along the
result list. -/
def ScoresNonIncreasing (l : List SearchResult) : Prop := l.Pairwise scoreGE

/-- An engine response whose hits arrive in descending score order. -/
def HitsSorted (er : EngineResponse) : Prop :=
  er.hits.Pairwise (fun a b => b.score ≤ a.score)

/-- Every successful engine call of the environment returns its hits in
descending score order (OpenSearch's default `_score` ordering). -/
def EnvSorted (env : Env) : Prop :=
  (∀ q er, env.engineKeyword q = some er → HitsSorted er) ∧
  (∀ q er, env.engineVector q = some er → HitsSorted er) ∧
  (∀ q er, env.engineHybrid q = some er → HitsSorted er) ∧
  (∀ q er, env.engineSupplement q = some er → HitsSorted er)

/-! ## Concrete environments used to instantiate the theorems -/

/-- A minimal environment: OpenSearch up, everything else absent or
failing. -/
def envBase : Env :=
  { opensearchAvailable := true
    embedderAvailable := false
    rerankerAvailable := false
    apiKeyConfigured := false
    decode := fun s => s
    expand := fun q => [q]
    embed := fun _ => none
    engineKeyword := fun _ => none
    engineVector := fun _ => none
    engineHybrid := fun _ => none
    engineSupplement := fun _ => none
    llm := fun _ _ => .callError "unreachable"
    rerankSvc := fun _ _ => .badFormat
    cacheSave := fun _ _ _ _ => none }

/-- Environment with the OpenSearch client unavailable. -/
def envDown : Env := { envBase with opensearchAvailable := false }

/-- A plain keyword request. -/
def reqKw : SearchRequest :=
  { query := "gl", page := 1, pageSize := 30, searchType := "keyword", enableLlm := false }

/-- A hit whose title contains the query term and whose highlight marks
that same term. -/
def hitDup : Hit :=
  { id := "d1", title := "gl", abstract := "x", keywords := [], score := 1
    highlight := [("title", ["<em>gl</em>"])] }

/-- Environment whose keyword query returns `hitDup` and nothing else. -/
def envDup : Env :=
  { envBase with engineKeyword := fun _ => some { hits := [hitDup], total := 1 } }

/-- A hit served by the supplementation vector query. -/
def hitSupp : Hit :=
  { id := "v1", title := "T", abstract := "A", keywords := [], score := 1, highlight := [] }

/-- Environment where the keyword pass returns nothing and supplementation
returns `hitSupp`. -/
def envSupp : Env :=
  { envBase with
    embedderAvailable := true
    embed := fun _ => some [1]
    engineKeyword := fun _ => some { hits := [], total := 0 }
    engineSupplement := fun _ => some { hits := [hitSupp], total := 1 } }

/-- Environment whose URL decoding yields the empty string. -/
def envBlank : Env := { envBase with decode := fun _ => "" }

/-- The response `envSupp` produces for `reqKw` with terms `["gl"]`: the
single supplement candidate, marked as a vector-sourced result. -/
def respSupp : SearchResponse :=
  { total := 1
    results := [mkVectorResult hitSupp "未启用LLM评估"]
    searchType := "keyword"
    rewrittenTerms := some ["gl"]
    search_id := none }

/-- Two results fed to the reranker in the C2 counterexample: the document
"a" scored 1/2 and the document "b" scored 4/5. -/
def resA : SearchResult :=
  { id := "a", title := "a", keywords := [], abstract := "", score := mkRat 1 2 }

def resB : SearchResult :=
  { id := "b", title := "b", keywords := [], abstract := "", score := mkRat 4 5 }

/-- A vector request. -/
def reqVec : SearchRequest :=
  { query := "gl", page := 1, pageSize := 30, searchType := "vector", enableLlm := false }

/-- Environment for the vector branch: the vector query returns `hitSupp`. -/
def envVec : Env :=
  { envBase with
    embedderAvailable := true
    embed := fun _ => some [1]
    engineVector := fun _ => some { hits := [hitSupp], total := 7 } }

/-! ## Helper lemmas -/

theorem attachSearchId_preserves (env : Env) (q st : String) (el : Bool)
    (resp : SearchResponse) :
    (attachSearchId env q st el resp).results = resp.results ∧
    (attachSearchId env q st el resp).total = resp.total ∧
    (attachSearchId env q st el resp).searchType = resp.searchType ∧
    (attachSearchId env q st el resp).rewrittenTerms = resp.rewrittenTerms := by
  unfold attachSearchId
  cases env.cacheSave q st resp el with
  | none => exact ⟨rfl, rfl, rfl, rfl⟩
  | some id =>
    dsimp only
    split <;> exact ⟨rfl, rfl, rfl, rfl⟩

theorem sortByScoreDesc_sorted (l : List SearchResult) :
    ScoresNonIncreasing (sortByScoreDesc l) :=
  List.sorted_insertionSort scoreGE l

theorem sortByScoreDesc_perm (l : List SearchResult) :
    (sortByScoreDesc l).Perm l :=
  List.perm_insertionSort scoreGE l

theorem overwriteScores_length :
    ∀ (rs : List SearchResult) (ss : List ℚ),
      (overwriteScores rs ss).length = rs.length := by
  intro rs
  induction rs with
  | nil => intro ss; cases ss <;> rfl
  | cons r rs ih =>
    intro ss
    cases ss with
    | nil => rfl
    | cons s ss => simpa [overwriteScores] using ih ss

theorem overwriteScores_map_id :
    ∀ (rs : List SearchResult) (ss : List ℚ),
      (overwriteScores rs ss).map (fun r => r.id) = rs.map (fun r => r.id) := by
  intro rs
  induction rs with
  | nil => intro ss; cases ss <;> rfl
  | cons r rs ih =>
    intro ss
    cases ss with
    | nil => rfl
    | cons s ss => simpa [overwriteScores] using ih ss

theorem overwriteScores_mem :
    ∀ (rs : List SearchResult) (ss : List ℚ) (r : SearchResult),
      r ∈ overwriteScores rs ss →
      ∃ r' ∈ rs, r.id = r'.id ∧ r.title = r'.title ∧ r.source = r'.source ∧
        r.matched_keywords = r'.matched_keywords ∧
        r.relevance_reason = r'.relevance_reason := by
  intro rs
  induction rs with
  | nil =>
    intro ss r hr
    cases ss <;> simp [overwriteScores] at hr
  | cons a rs ih =>
    intro ss r hr
    cases ss with
    | nil =>
      exact ⟨r, hr, rfl, rfl, rfl, rfl, rfl⟩
    | cons s ss =>
      simp only [overwriteScores, List.mem_cons] at hr
      rcases hr with h | h
      · exact ⟨a, List.mem_cons_self a rs, by simp [h]⟩
      · obtain ⟨r', hr', hfields⟩ := ih ss r h
        exact ⟨r', List.mem_cons_of_mem a hr', hfields⟩

theorem rerank_results_length (svc : String → List String → RerankOutcome)
    (q : String) (rs : List SearchResult) :
    (rerank_results svc q rs).length = rs.length := by
  unfold rerank_results
  dsimp only
  split
  · rfl
  · rw [(sortByScoreDesc_perm _).length_eq, overwriteScores_length]

theorem rerank_results_ids_perm (svc : String → List String → RerankOutcome)
    (q : String) (rs : List SearchResult) :
    ((rerank_results svc q rs).map (fun r => r.id)).Perm
      (rs.map (fun r => r.id)) := by
  unfold rerank_results
  dsimp only
  split
  · exact List.Perm.refl _
  · have h1 := (sortByScoreDesc_perm (overwriteScores rs
      ((BGEReranker_rerank (svc q (rs.map (fun r => r.title)))
        (rs.map (fun r => r.title)) none).map (fun x => x.score)))).map
      (fun r => r.id)
    rw [overwriteScores_map_id] at h1
    exact h1

theorem rerank_results_mem (svc : String → List String → RerankOutcome)
    (q : String) (rs : List SearchResult) (r : SearchResult)
    (hr : r ∈ rerank_results svc q rs) :
    ∃ r' ∈ rs, r.id = r'.id ∧ r.title = r'.title ∧ r.source = r'.source ∧
      r.matched_keywords = r'.matched_keywords ∧
      r.relevance_reason = r'.relevance_reason := by
  unfold rerank_results at hr
  dsimp only at hr
  split at hr
  · exact ⟨r, hr, rfl, rfl, rfl, rfl, rfl⟩
  · exact overwriteScores_mem rs _ r ((sortByScoreDesc_perm _).mem_iff.mp hr)

theorem rerank_results_sorted (svc : String → List String → RerankOutcome)
    (q : String) (rs : List SearchResult) (h : ScoresNonIncreasing rs) :
    ScoresNonIncreasing (rerank_results svc q rs) := by
  unfold rerank_results
  dsimp only
  split
  · exact h
  · exact sortByScoreDesc_sorted _

theorem supplementCandidates_mem {env : Env} {q : String} {seen : List String}
    {el : Bool} {hits : List Hit} {a : SearchResult}
    (ha : a ∈ supplementCandidates env q seen el hits) :
    ∃ hit ∈ hits, a = mkVectorResult hit (envEval env q (evalText hit) el).2 ∧
      ¬ hit.id ∈ seen ∧ mkRat 1 10 ≤ hit.score ∧
      (envEval env q (evalText hit) el).1 = true := by
  unfold supplementCandidates at ha
  obtain ⟨hit, hmem, rfl⟩ := List.mem_map.mp ha
  obtain ⟨hh, hp⟩ := List.mem_filter.mp hmem
  simp only [Bool.and_eq_true, Bool.not_eq_true', decide_eq_true_eq] at hp
  exact ⟨hit, hh, rfl, by simpa using hp.1.1, hp.1.2, hp.2⟩

/-- Computation of the keyword branch when supplementation triggers and
both of its collaborator calls succeed. -/
theorem keyword_search_supplement_eq (env : Env) (q : String) (terms : List String)
    (req : SearchRequest) (er : EngineResponse) (emb : List ℚ) (vr : EngineResponse)
    (heng : env.engineKeyword (build_keyword_search_query terms req.page req.pageSize)
      = some er)
    (hc : er.hits.length < 10000) (hemb : env.embedderAvailable = true)
    (hembed : env.embed (String.intercalate " " (q :: terms)) = some emb)
    (hsup : env.engineSupplement
      (build_supplement_query emb terms ((er.hits.map (fun h => h.id)).dedup)
        (10000 - er.hits.length)) = some vr) :
    ∃ resp, keyword_search env q terms req = .ok resp ∧
      resp.results =
        (if env.rerankerAvailable &&
            !(sortByScoreDesc (er.hits.map (mkKeywordResult terms) ++
              supplementCandidates env q ((er.hits.map (fun h => h.id)).dedup)
                req.enableLlm vr.hits)).isEmpty then
          rerank_results env.rerankSvc q
            (sortByScoreDesc (er.hits.map (mkKeywordResult terms) ++
              supplementCandidates env q ((er.hits.map (fun h => h.id)).dedup)
                req.enableLlm vr.hits))
        else
          sortByScoreDesc (er.hits.map (mkKeywordResult terms) ++
            supplementCandidates env q ((er.hits.map (fun h => h.id)).dedup)
              req.enableLlm vr.hits)) ∧
      resp.total = resp.results.length ∧
      resp.searchType = req.searchType ∧
      resp.rewrittenTerms = some terms := by
  have hcond : (decide ((er.hits.map (mkKeywordResult terms)).length < 10000) &&
      env.embedderAvailable) = true := by
    simp [List.length_map, hc, hemb]
  have hlen : (er.hits.map (mkKeywordResult terms)).length = er.hits.length :=
    List.length_map _ _
  unfold keyword_search
  rw [heng]
  simp only [hcond, if_true]
  unfold supplement_with_vector_search
  simp only [hlen, hembed, hsup]
  refine ⟨_, rfl, ?_, ?_, ?_, ?_⟩
  · rw [(attachSearchId_preserves _ _ _ _ _).1]
  · rw [(attachSearchId_preserves _ _ _ _ _).1, (attachSearchId_preserves _ _ _ _ _).2.1]
  · rw [(attachSearchId_preserves _ _ _ _ _).2.2.1]
  · rw [(attachSearchId_preserves _ _ _ _ _).2.2.2]

/-- Any successful supplementation is the descending re-sort of the
keyword results extended with the kept vector candidates. -/
theorem supplement_ok_shape (env : Env) (q : String) (terms : List String)
    (results : List SearchResult) (seen : List String) (req : SearchRequest)
    (final : List SearchResult)
    (h : supplement_with_vector_search env q terms results seen req = .ok final) :
    ∃ emb vr, env.embed (String.intercalate " " (q :: terms)) = some emb ∧
      env.engineSupplement (build_supplement_query emb terms seen
        (10000 - results.length)) = some vr ∧
      final = sortByScoreDesc
        (results ++ supplementCandidates env q seen req.enableLlm vr.hits) := by
  unfold supplement_with_vector_search at h
  dsimp only at h
  cases hembed : env.embed (String.intercalate " " (q :: terms)) with
  | none => rw [hembed] at h; simp at h
  | some emb =>
    rw [hembed] at h
    dsimp only at h
    cases hsup : env.engineSupplement (build_supplement_query emb terms seen
        (10000 - results.length)) with
    | none => rw [hsup] at h; simp at h
    | some vr =>
      rw [hsup] at h
      dsimp only at h
      simp only [Except.ok.injEq] at h
      exact ⟨emb, vr, rfl, hsup, h.symm⟩

/-- Every result of a successful keyword-branch response is, up to a score
overwrite by reranking, either a keyword-constructed result or a
vector-constructed supplement result. -/
theorem keyword_search_results_origin (env : Env) (q : String) (terms : List String)
    (req : SearchRequest) (resp : SearchResponse)
    (h : keyword_search env q terms req = .ok resp) :
    ∀ r ∈ resp.results, ∃ r',
      r.id = r'.id ∧ r.source = r'.source ∧
      r.matched_keywords = r'.matched_keywords ∧
      r.relevance_reason = r'.relevance_reason ∧
      ((∃ hit ∈ (match env.engineKeyword (build_keyword_search_query terms req.page
          req.pageSize) with | some er => er.hits | none => []),
          r' = mkKeywordResult terms hit) ∨
        (∃ hit reason, r' = mkVectorResult hit reason)) := by
  unfold keyword_search at h
  cases heng : env.engineKeyword (build_keyword_search_query terms req.page req.pageSize) with
  | none => rw [heng] at h; simp at h
  | some er =>
    rw [heng] at h
    dsimp only at h
    dsimp only
    -- membership characterization of the (possibly supplemented) list
    have origin : ∀ (results₁ : List SearchResult),
        (if (decide ((er.hits.map (mkKeywordResult terms)).length < 10000) &&
            env.embedderAvailable) = true then
          supplement_with_vector_search env q terms (er.hits.map (mkKeywordResult terms))
            ((er.hits.map (fun hh => hh.id)).dedup) req
        else Except.ok (er.hits.map (mkKeywordResult terms))) = .ok results₁ →
        ∀ r ∈ results₁,
          (∃ hit ∈ er.hits, r = mkKeywordResult terms hit) ∨
          (∃ hit reason, r = mkVectorResult hit reason) := by
      intro results₁ hres r hr
      split at hres
      · obtain ⟨emb, vr, _, _, hfinal⟩ :=
          supplement_ok_shape _ _ _ _ _ _ _ hres
        subst hfinal
        have hr' := (sortByScoreDesc_perm _).mem_iff.mp hr
        rcases List.mem_append.mp hr' with hl | hrbr
        · obtain ⟨hit, hmem, rfl⟩ := List.mem_map.mp hl
          exact Or.inl ⟨hit, hmem, rfl⟩
        · obtain ⟨hit, _, rfl, _⟩ := supplementCandidates_mem hrbr
          exact Or.inr ⟨hit, _, rfl⟩
      · simp only [Except.ok.injEq] at hres
        subst hres
        obtain ⟨hit, hmem, rfl⟩ := List.mem_map.mp hr
        exact Or.inl ⟨hit, hmem, rfl⟩
    cases hres : (if (decide ((er.hits.map (mkKeywordResult terms)).length < 10000) &&
        env.embedderAvailable) = true then
          supplement_with_vector_search env q terms (er.hits.map (mkKeywordResult terms))
            ((er.hits.map (fun hh => hh.id)).dedup) req
        else Except.ok (er.hits.map (mkKeywordResult terms))) with
    | error e => rw [hres] at h; simp at h
    | ok results₁ =>
      rw [hres] at h
      dsimp only at h
      simp only [Except.ok.injEq] at h
      subst h
      intro r hr
      rw [(attachSearchId_preserves _ _ _ _ _).1] at hr
      dsimp only at hr
      split at hr
      · obtain ⟨r', hr', hid, htitle, hsrc, hmk, hrr⟩ :=
          rerank_results_mem _ _ _ _ hr
        exact ⟨r', hid, hsrc, hmk, hrr, origin results₁ hres r' hr'⟩
      · exact ⟨r, rfl, rfl, rfl, rfl, origin results₁ hres r hr⟩

/-- Computation of the vector branch when its collaborator calls succeed. -/
theorem vector_search_eq (env : Env) (q : String) (terms : List String)
    (req : SearchRequest) (emb : List ℚ) (er : EngineResponse)
    (hA : env.embedderAvailable = true)
    (hembed : env.embed q = some emb)
    (heng : env.engineVector (build_vector_search_query emb terms req.page req.pageSize)
      = some er) :
    ∃ resp, vector_search env q terms req = .ok resp ∧
      resp.results =
        (er.hits.filter (fun hit => (envEval env q (evalText hit) req.enableLlm).1)).map
          (fun hit => mkVectorResult hit (envEval env q (evalText hit) req.enableLlm).2) ∧
      resp.total = resp.results.length ∧
      resp.searchType = req.searchType ∧
      resp.rewrittenTerms = some terms := by
  unfold vector_search
  simp only [hA, Bool.not_true, Bool.false_eq_true, if_false, hembed, heng]
  refine ⟨_, rfl, ?_, ?_, ?_, ?_⟩
  · rw [(attachSearchId_preserves _ _ _ _ _).1]
  · rw [(attachSearchId_preserves _ _ _ _ _).1, (attachSearchId_preserves _ _ _ _ _).2.1]
  · rw [(attachSearchId_preserves _ _ _ _ _).2.2.1]
  · rw [(attachSearchId_preserves _ _ _ _ _).2.2.2]

/-- A successful vector branch has its results sorted by descending score
whenever the engine's hits were. -/
theorem vector_search_sorted (env : Env) (q : String) (terms : List String)
    (req : SearchRequest) (resp : SearchResponse)
    (hV : ∀ d er, env.engineVector d = some er → HitsSorted er)
    (h : vector_search env q terms req = .ok resp) :
    ScoresNonIncreasing resp.results := by
  unfold vector_search at h
  split at h
  · simp at h
  · cases hembed : env.embed q with
    | none => rw [hembed] at h; simp at h
    | some emb =>
      rw [hembed] at h
      dsimp only at h
      cases heng : env.engineVector (build_vector_search_query emb terms req.page
          req.pageSize) with
      | none => rw [heng] at h; simp at h
      | some er =>
        rw [heng] at h
        dsimp only at h
        simp only [Except.ok.injEq] at h
        subst h
        rw [(attachSearchId_preserves _ _ _ _ _).1]
        dsimp only
        exact List.Pairwise.map _ (fun a b hab => hab)
          (List.Pairwise.filter _ (hV _ _ heng))

/-- A successful hybrid branch has its results sorted by descending score
whenever the engine's hits were. -/
theorem hybrid_search_sorted (env : Env) (q : String) (terms : List String)
    (req : SearchRequest) (resp : SearchResponse)
    (hH : ∀ d er, env.engineHybrid d = some er → HitsSorted er)
    (h : hybrid_search env q terms req = .ok resp) :
    ScoresNonIncreasing resp.results := by
  unfold hybrid_search at h
  split at h
  · simp at h
  · cases hembed : env.embed q with
    | none => rw [hembed] at h; simp at h
    | some emb =>
      rw [hembed] at h
      dsimp only at h
      cases heng : env.engineHybrid (build_hybrid_search_query terms emb req.page
          req.pageSize) with
      | none => rw [heng] at h; simp at h
      | some er =>
        rw [heng] at h
        dsimp only at h
        simp only [Except.ok.injEq] at h
        subst h
        rw [(attachSearchId_preserves _ _ _ _ _).1]
        dsimp only
        have hbase : ScoresNonIncreasing (er.hits.map (mkHybridResult terms)) :=
          List.Pairwise.map _ (fun a b hab => hab) (hH _ _ heng)
        split
        · exact rerank_results_sorted _ _ _ hbase
        · exact hbase

/-- A successful keyword branch has its results sorted by descending score
whenever the engine's hits were (supplementation re-sorts on its own). -/
theorem keyword_search_sorted (env : Env) (q : String) (terms : List String)
    (req : SearchRequest) (resp : SearchResponse)
    (hK : ∀ d er, env.engineKeyword d = some er → HitsSorted er)
    (h : keyword_search env q terms req = .ok resp) :
    ScoresNonIncreasing resp.results := by
  unfold keyword_search at h
  cases heng : env.engineKeyword (build_keyword_search_query terms req.page req.pageSize) with
  | none => rw [heng] at h; simp at h
  | some er =>
    rw [heng] at h
    dsimp only at h
    have hbase : ScoresNonIncreasing (er.hits.map (mkKeywordResult terms)) :=
      List.Pairwise.map _ (fun a b hab => hab) (hK _ _ heng)
    cases hres : (if (decide ((er.hits.map (mkKeywordResult terms)).length < 10000) &&
        env.embedderAvailable) = true then
          supplement_with_vector_search env q terms (er.hits.map (mkKeywordResult terms))
            ((er.hits.map (fun hh => hh.id)).dedup) req
        else Except.ok (er.hits.map (mkKeywordResult terms))) with
    | error e => rw [hres] at h; simp at h
    | ok results₁ =>
      rw [hres] at h
      dsimp only at h
      simp only [Except.ok.injEq] at h
      subst h
      have hsorted₁ : ScoresNonIncreasing results₁ := by
        split at hres
        · obtain ⟨emb, vr, _, _, hfinal⟩ := supplement_ok_shape _ _ _ _ _ _ _ hres
          subst hfinal
          exact sortByScoreDesc_sorted _
        · simp only [Except.ok.injEq] at hres
          subst hres
          exact hbase
      rw [(attachSearchId_preserves _ _ _ _ _).1]
      dsimp only
      split
      · exact rerank_results_sorted _ _ _ hsorted₁
      · exact hsorted₁

theorem shouldClauses_length : ∀ ts : List String,
    (shouldClauses ts).length = 3 * ts.length := by
  intro ts
  induction ts with
  | nil => rfl
  | cons t ts ih =>
    simp only [shouldClauses, List.flatMap_cons] at *
    simp only [List.length_append, List.length_cons, List.length_nil, ih]
    omega

theorem shouldClauses_get : ∀ (ts : List String) (i : Nat) (h : i < ts.length),
    (shouldClauses ts)[3*i]? =
      some (QueryClause.matchPhrase "title" (ts.get ⟨i, h⟩) (some 5)) ∧
    (shouldClauses ts)[3*i+1]? =
      some (QueryClause.matchPhrase "keywords" (ts.get ⟨i, h⟩) (some 10)) ∧
    (shouldClauses ts)[3*i+2]? =
      some (QueryClause.matchPhrase "abstract" (ts.get ⟨i, h⟩) (some 2)) := by
  intro ts
  induction ts with
  | nil => intro i h; simp at h
  | cons t ts ih =>
    intro i h
    cases i with
    | zero =>
      refine ⟨?_, ?_, ?_⟩ <;> simp [shouldClauses, List.flatMap_cons]
    | succ i =>
      have h' : i < ts.length := by simpa using h
      obtain ⟨h1, h2, h3⟩ := ih i h'
      have e1 : 3 * (i + 1) = (3 * i) + 1 + 1 + 1 := by ring
      have e2 : 3 * (i + 1) + 1 = ((3 * i) + 1) + 1 + 1 + 1 := by ring
      have e3 : 3 * (i + 1) + 2 = ((3 * i) + 2) + 1 + 1 + 1 := by ring
      refine ⟨?_, ?_, ?_⟩
      · rw [e1]
        simpa [shouldClauses, List.flatMap_cons] using h1
      · rw [e2]
        simpa [shouldClauses, List.flatMap_cons] using h2
      · rw [e3]
        simpa [shouldClauses, List.flatMap_cons] using h3

/-! ## Claim theorems -/

/-- C1: `search(request)` never raises to its caller — every internal
failure, including an unavailable OpenSearch client and an unavailable
embedder for the vector/hybrid strategies, is absorbed and converted to a
response with `total=0`, `results=[]`, the original `searchType`, and
`rewrittenTerms` null; every run either succeeds with the body's response
or produces exactly that empty response. -/
theorem search_absorbs_failures (env : Env) (request : SearchRequest) :
    (∀ e, search_body env request = .error e →
      search env request = emptyResponse request.searchType) ∧
    (env.opensearchAvailable = false →
      search env request = emptyResponse request.searchType) ∧
    (request.searchType = "vector" → env.embedderAvailable = false →
      search env request = emptyResponse request.searchType) ∧
    (request.searchType = "hybrid" → env.embedderAvailable = false →
      search env request = emptyResponse request.searchType) ∧
    (search_body env request = .ok (search env request) ∨
      search env request = emptyResponse request.searchType) := by
  refine ⟨?_, ?_, ?_, ?_, ?_⟩
  · intro e he
    simp [search, he]
  · intro h
    simp [search, search_body, h]
  · intro hst hemb
    cases hos : env.opensearchAvailable with
    | false => simp [search, search_body, hos]
    | true =>
      by_cases hq : env.decode request.query = ""
      · simp [search, search_body, hos, hq]
      · simp [search, search_body, vector_search, hos, hq, hst, hemb]
  · intro hst hemb
    cases hos : env.opensearchAvailable with
    | false => simp [search, search_body, hos]
    | true =>
      by_cases hq : env.decode request.query = ""
      · simp [search, search_body, hos, hq]
      · simp [search, search_body, hybrid_search, hos, hq, hst, hemb]
  · cases hb : search_body env request with
    | ok r => exact Or.inl (by simp [search, hb])
    | error e => exact Or.inr (by simp [search, hb])

/-- C1 witness: with the OpenSearch client unavailable, a keyword request
yields the empty response. -/
theorem search_absorbs_failures_witness :
    search envDown reqKw = emptyResponse "keyword" :=
  (search_absorbs_failures envDown reqKw).2.1 rfl

/-- C5: for every vector-strategy search, each engine hit runs through the
relevance filter and only hits judged relevant appear (the filter being a
pass-through when `enableLlm` is false), and `total` equals the count of
kept hits, not the engine-reported total. -/
theorem vector_strategy_filters_and_counts (env : Env) (q : String)
    (terms : List String) (req : SearchRequest) (emb : List ℚ) (er : EngineResponse)
    (hA : env.embedderAvailable = true) (hembed : env.embed q = some emb)
    (heng : env.engineVector (build_vector_search_query emb terms req.page req.pageSize)
      = some er) :
    ∃ resp, vector_search env q terms req = .ok resp ∧
      resp.total = resp.results.length ∧
      (∀ r ∈ resp.results, ∃ hit ∈ er.hits,
        (envEval env q (evalText hit) req.enableLlm).1 = true ∧
        r = mkVectorResult hit (envEval env q (evalText hit) req.enableLlm).2) ∧
      (req.enableLlm = false →
        resp.results = er.hits.map (fun hit => mkVectorResult hit "未启用LLM评估") ∧
        resp.total = er.hits.length) := by
  obtain ⟨resp, hok, hres, htot, _, _⟩ := vector_search_eq env q terms req emb er hA hembed heng
  refine ⟨resp, hok, htot, ?_, ?_⟩
  · intro r hr
    rw [hres] at hr
    obtain ⟨hit, hmem, rfl⟩ := List.mem_map.mp hr
    exact ⟨hit, (List.mem_filter.mp hmem).1, (List.mem_filter.mp hmem).2, rfl⟩
  · intro hllm
    have hpass : resp.results = er.hits.map
        (fun hit => mkVectorResult hit "未启用LLM评估") := by
      rw [hres]
      simp [hllm, envEval, evaluate_relevance]
    refine ⟨hpass, ?_⟩
    rw [htot, hpass, List.length_map]

/-- C5 witness: at a concrete vector environment with the filter disabled,
the single engine hit is kept and counted. -/
theorem vector_strategy_filters_and_counts_witness :
    ∃ resp, vector_search envVec "gl" ["gl"] reqVec = .ok resp ∧
      resp.total = resp.results.length ∧
      (∀ r ∈ resp.results, ∃ hit ∈ ({ hits := [hitSupp], total := 7 } : EngineResponse).hits,
        (envEval envVec "gl" (evalText hit) reqVec.enableLlm).1 = true ∧
        r = mkVectorResult hit (envEval envVec "gl" (evalText hit) reqVec.enableLlm).2) ∧
      (reqVec.enableLlm = false →
        resp.results = ({ hits := [hitSupp], total := 7 } : EngineResponse).hits.map
          (fun hit => mkVectorResult hit "未启用LLM评估") ∧
        resp.total = ({ hits := [hitSupp], total := 7 } : EngineResponse).hits.length) :=
  vector_strategy_filters_and_counts envVec "gl" ["gl"] reqVec [1]
    { hits := [hitSupp], total := 7 } rfl rfl rfl

/-- C6: whenever the engine returns hits in descending score order, the
scores of the returned results sequence are non-increasing, for all three
strategies, with or without supplementation and reranking. -/
theorem scores_non_increasing (env : Env) (request : SearchRequest)
    (h : EnvSorted env) : ScoresNonIncreasing (search env request).results := by
  obtain ⟨hK, hV, hH, _⟩ := h
  unfold search
  cases hb : search_body env request with
  | error e => exact List.Pairwise.nil
  | ok resp =>
    dsimp only
    unfold search_body at hb
    split at hb
    · simp at hb
    · dsimp only at hb
      by_cases hq : env.decode request.query = ""
      · rw [if_pos hq] at hb
        simp only [Except.ok.injEq] at hb
        subst hb
        exact List.Pairwise.nil
      · rw [if_neg hq] at hb
        split at hb
        · exact hybrid_search_sorted _ _ _ _ _ hH hb
        · split at hb
          · exact vector_search_sorted _ _ _ _ _ hV hb
          · exact keyword_search_sorted _ _ _ _ _ hK hb

/-- C6 witness: instantiated at a concrete environment (all engine calls
fail, so their sortedness hypothesis is vacuous). -/
theorem scores_non_increasing_witness :
    ScoresNonIncreasing (search envDown reqKw).results :=
  scores_non_increasing envDown reqKw
    ⟨fun _ er h => by simp [envDown, envBase] at h,
     fun _ er h => by simp [envDown, envBase] at h,
     fun _ er h => by simp [envDown, envBase] at h,
     fun _ er h => by simp [envDown, envBase] at h⟩

/-- C7: the relevance evaluation with `enabled=false` returns `true` with
the fixed not-evaluated reason (the code's constant "未启用LLM评估")
regardless of input; with no LLM credential it returns `true`; and on any
call failure or malformed/missing JSON it is fail-open — the candidate is
judged relevant and the failure recorded as the reason. -/
theorem relevance_fail_open (key : Bool) (llm : String → String → LLMOutcome)
    (query text : String) :
    evaluate_relevance key llm query text false = (true, "未启用LLM评估") ∧
    evaluate_relevance false llm query text true = (true, "未配置OpenAI API") ∧
    (∀ msg, llm query text = .callError msg →
      evaluate_relevance true llm query text true = (true, "评估出错: " ++ msg)) ∧
    (llm query text = .reply .noJson →
      evaluate_relevance true llm query text true = (true, "JSON内容解析失败")) ∧
    (llm query text = .reply .parseFail →
      evaluate_relevance true llm query text true = (true, "JSON解析失败")) ∧
    (∀ reason, llm query text = .reply (.parsed none reason) →
      (evaluate_relevance true llm query text true).1 = true) := by
  refine ⟨by simp [evaluate_relevance], by simp [evaluate_relevance], ?_, ?_, ?_, ?_⟩
  · intro msg hmsg
    simp [evaluate_relevance, hmsg]
  · intro hmsg
    simp [evaluate_relevance, hmsg]
  · intro hmsg
    simp [evaluate_relevance, hmsg]
  · intro reason hmsg
    simp [evaluate_relevance, hmsg]

/-- C7 witness: a failing LLM call is fail-open with the failure recorded. -/
theorem relevance_fail_open_witness :
    evaluate_relevance true (fun _ _ => LLMOutcome.callError "boom") "q" "t" true
      = (true, "评估出错: boom") :=
  (relevance_fail_open true (fun _ _ => LLMOutcome.callError "boom") "q" "t").2.2.1
    "boom" rfl

/-- C8: a request whose query decodes to the empty string yields
`{total: 0, results: [], rewrittenTerms: null}` with the request's
`searchType` echoed, regardless of every other collaborator. -/
theorem empty_query_short_circuit (env : Env) (request : SearchRequest)
    (h : env.decode request.query = "") :
    search env request = emptyResponse request.searchType ∧
    (search env request).total = 0 ∧
    (search env request).results = [] ∧
    (search env request).rewrittenTerms = none ∧
    (search env request).searchType = request.searchType := by
  have hmain : search env request = emptyResponse request.searchType := by
    unfold search search_body
    cases hos : env.opensearchAvailable <;> simp [h]
  exact ⟨hmain, by rw [hmain]; rfl, by rw [hmain]; rfl, by rw [hmain]; rfl,
    by rw [hmain]; rfl⟩

/-- C8 witness: concrete request whose decoding yields the empty string. -/
theorem empty_query_short_circuit_witness :
    search envBlank reqKw = emptyResponse "keyword" :=
  (empty_query_short_circuit envBlank reqKw rfl).1

/-- C9: the keyword query builder is pure (equal inputs give equal
descriptors), and for n expanded terms its `should` clause holds exactly 3n
phrase-match clauses — for the i-th term a title clause boosted 5, a
keywords clause boosted 10 and an abstract clause boosted 2 — with
`minimum_should_match` 1, pagination `from=(page-1)*pageSize`,
`size=pageSize`, and highlighting requested on all three fields. -/
theorem keyword_builder_pure_and_shape (query_terms : List String)
    (page page_size : Nat) :
    build_keyword_search_query query_terms page page_size =
      build_keyword_search_query query_terms page page_size ∧
    (build_keyword_search_query query_terms page page_size).should.length =
      3 * query_terms.length ∧
    (build_keyword_search_query query_terms page page_size).minimum_should_match = 1 ∧
    (build_keyword_search_query query_terms page page_size).from_ =
      (page - 1) * page_size ∧
    (build_keyword_search_query query_terms page page_size).size = page_size ∧
    (build_keyword_search_query query_terms page page_size).highlight_fields =
      ["title", "abstract", "keywords"] ∧
    ∀ (i : Nat) (h : i < query_terms.length),
      (build_keyword_search_query query_terms page page_size).should[3*i]? =
        some (QueryClause.matchPhrase "title" (query_terms.get ⟨i, h⟩) (some 5)) ∧
      (build_keyword_search_query query_terms page page_size).should[3*i+1]? =
        some (QueryClause.matchPhrase "keywords" (query_terms.get ⟨i, h⟩) (some 10)) ∧
      (build_keyword_search_query query_terms page page_size).should[3*i+2]? =
        some (QueryClause.matchPhrase "abstract" (query_terms.get ⟨i, h⟩) (some 2)) :=
  ⟨rfl, shouldClauses_length _, rfl, rfl, rfl, rfl,
    fun i h => shouldClauses_get query_terms i h⟩

/-- C9 witness: the spec's example — three expanded terms give nine phrase
clauses, and the clauses of the second term carry the documented fields
and boosts. -/
theorem keyword_builder_pure_and_shape_witness :
    (build_keyword_search_query ["glaucoma", "青光眼", "GLC"] 1 30).should.length = 9 ∧
    (build_keyword_search_query ["glaucoma", "青光眼", "GLC"] 1 30).should[3]? =
      some (QueryClause.matchPhrase "title" "青光眼" (some 5)) ∧
    (build_keyword_search_query ["glaucoma", "青光眼", "GLC"] 1 30).should[4]? =
      some (QueryClause.matchPhrase "keywords" "青光眼" (some 10)) ∧
    (build_keyword_search_query ["glaucoma", "青光眼", "GLC"] 1 30).should[5]? =
      some (QueryClause.matchPhrase "abstract" "青光眼" (some 2)) := by
  have h := keyword_builder_pure_and_shape ["glaucoma", "青光眼", "GLC"] 1 30
  obtain ⟨h1, h2, h3⟩ := h.2.2.2.2.2.2 1 (by decide)
  exact ⟨by simpa using h.2.1, by simpa using h1, by simpa using h2, by simpa using h3⟩

/-- C3: for every keyword search whose keyword pass yields `c < 10000` hits
with an embedder available, supplementation runs a vector query whose
exclusion clause lists the already-seen ids and a phrase clause per
expanded term, keeps only unseen candidates with score ≥ 0.1 that pass the
relevance filter, appends them and re-sorts descending; the response holds
exactly `c + s` results, and no supplemented candidate shares an id with an
original hit. -/
theorem keyword_supplementation_count_disjoint (env : Env) (q : String)
    (terms : List String) (req : SearchRequest) (er : EngineResponse)
    (emb : List ℚ) (vr : EngineResponse)
    (heng : env.engineKeyword (build_keyword_search_query terms req.page req.pageSize)
      = some er)
    (hc : er.hits.length < 10000)
    (hembA : env.embedderAvailable = true)
    (hembed : env.embed (String.intercalate " " (q :: terms)) = some emb)
    (hsup : env.engineSupplement (build_supplement_query emb terms
      ((er.hits.map (fun h => h.id)).dedup) (10000 - er.hits.length)) = some vr) :
    ∃ resp, keyword_search env q terms req = .ok resp ∧
      resp.results.length = er.hits.length +
        (supplementCandidates env q ((er.hits.map (fun h => h.id)).dedup)
          req.enableLlm vr.hits).length ∧
      resp.total = resp.results.length ∧
      (∀ a ∈ supplementCandidates env q ((er.hits.map (fun h => h.id)).dedup)
          req.enableLlm vr.hits,
        mkRat 1 10 ≤ a.score ∧
        (∃ hit ∈ vr.hits,
          a = mkVectorResult hit (envEval env q (evalText hit) req.enableLlm).2 ∧
          (envEval env q (evalText hit) req.enableLlm).1 = true) ∧
        (∀ hk ∈ er.hits, a.id ≠ hk.id)) ∧
      ((build_supplement_query emb terms ((er.hits.map (fun h => h.id)).dedup)
          (10000 - er.hits.length)).must_not =
        QueryClause.termsId ((er.hits.map (fun h => h.id)).dedup) ::
          mustNotClauses terms) ∧
      (env.rerankerAvailable = false →
        resp.results = sortByScoreDesc (er.hits.map (mkKeywordResult terms) ++
          supplementCandidates env q ((er.hits.map (fun h => h.id)).dedup)
            req.enableLlm vr.hits) ∧
        ScoresNonIncreasing resp.results) := by
  obtain ⟨resp, hok, hres, htot, hst, hrt⟩ :=
    keyword_search_supplement_eq env q terms req er emb vr heng hc hembA hembed hsup
  have hXlen : (sortByScoreDesc (er.hits.map (mkKeywordResult terms) ++
      supplementCandidates env q ((er.hits.map (fun h => h.id)).dedup)
        req.enableLlm vr.hits)).length =
      er.hits.length + (supplementCandidates env q
        ((er.hits.map (fun h => h.id)).dedup) req.enableLlm vr.hits).length := by
    rw [(sortByScoreDesc_perm _).length_eq, List.length_append, List.length_map]
  refine ⟨resp, hok, ?_, htot, ?_, rfl, ?_⟩
  · rw [hres]
    split
    · rw [rerank_results_length, hXlen]
    · rw [hXlen]
  · intro a ha
    obtain ⟨hit, hmem, rfl, hseen, hscore, hrel⟩ := supplementCandidates_mem ha
    refine ⟨hscore, ⟨hit, hmem, rfl, hrel⟩, ?_⟩
    intro hk hkmem heq
    exact hseen (List.mem_dedup.mpr (List.mem_map.mpr ⟨hk, hkmem, heq.symm⟩))
  · intro hrerank
    have hcond : (env.rerankerAvailable &&
        !(sortByScoreDesc (er.hits.map (mkKeywordResult terms) ++
          supplementCandidates env q ((er.hits.map (fun h => h.id)).dedup)
            req.enableLlm vr.hits)).isEmpty) = false := by
      rw [hrerank, Bool.false_and]
    rw [hres, hcond]
    exact ⟨by simp, by simp [sortByScoreDesc_sorted]⟩

/-- C3 witness: concrete supplementation — an empty keyword pass plus one
kept vector candidate. -/
theorem keyword_supplementation_count_disjoint_witness :
    ∃ resp, keyword_search envSupp "gl" ["gl"] reqKw = .ok resp ∧
      resp.results.length = ({ hits := [], total := 0 } : EngineResponse).hits.length +
        (supplementCandidates envSupp "gl"
          ((({ hits := [], total := 0 } : EngineResponse).hits.map (fun h => h.id)).dedup)
          reqKw.enableLlm ({ hits := [hitSupp], total := 1 } : EngineResponse).hits).length ∧
      resp.total = resp.results.length ∧
      (∀ a ∈ supplementCandidates envSupp "gl"
          ((({ hits := [], total := 0 } : EngineResponse).hits.map (fun h => h.id)).dedup)
          reqKw.enableLlm ({ hits := [hitSupp], total := 1 } : EngineResponse).hits,
        mkRat 1 10 ≤ a.score ∧
        (∃ hit ∈ ({ hits := [hitSupp], total := 1 } : EngineResponse).hits,
          a = mkVectorResult hit (envEval envSupp "gl" (evalText hit) reqKw.enableLlm).2 ∧
          (envEval envSupp "gl" (evalText hit) reqKw.enableLlm).1 = true) ∧
        (∀ hk ∈ ({ hits := [], total := 0 } : EngineResponse).hits, a.id ≠ hk.id)) ∧
      ((build_supplement_query [1] ["gl"]
          ((({ hits := [], total := 0 } : EngineResponse).hits.map (fun h => h.id)).dedup)
          (10000 - ({ hits := [], total := 0 } : EngineResponse).hits.length)).must_not =
        QueryClause.termsId
          ((({ hits := [], total := 0 } : EngineResponse).hits.map (fun h => h.id)).dedup) ::
          mustNotClauses ["gl"]) ∧
      (envSupp.rerankerAvailable = false →
        resp.results = sortByScoreDesc
          (({ hits := [], total := 0 } : EngineResponse).hits.map (mkKeywordResult ["gl"]) ++
            supplementCandidates envSupp "gl"
              ((({ hits := [], total := 0 } : EngineResponse).hits.map (fun h => h.id)).dedup)
              reqKw.enableLlm ({ hits := [hitSupp], total := 1 } : EngineResponse).hits) ∧
        ScoresNonIncreasing resp.results) :=
  keyword_supplementation_count_disjoint envSupp "gl" ["gl"] reqKw
    { hits := [], total := 0 } [1] { hits := [hitSupp], total := 1 }
    rfl (by decide) rfl rfl rfl

/-- C10: every result a keyword-branch response owes to supplementation
carries `source="vector"` with a relevance reason and without matched
keywords, while lexical hits carry `source="keyword"` with matched
keywords and no reason; concretely, a response with
`searchType="keyword"` can contain a result whose source is "vector". -/
theorem supplement_results_marked (env : Env) (q : String) (terms : List String)
    (req : SearchRequest) (resp : SearchResponse)
    (h : keyword_search env q terms req = .ok resp) :
    (∀ r ∈ resp.results,
      (r.source = some "keyword" ∧ r.relevance_reason = none ∧
        r.matched_keywords ≠ none) ∨
      (r.source = some "vector" ∧ r.matched_keywords = none ∧
        r.relevance_reason ≠ none)) ∧
    ((search envSupp reqKw).searchType = "keyword" ∧
      ∃ r ∈ (search envSupp reqKw).results, r.source = some "vector" ∧
        r.matched_keywords = none ∧ r.relevance_reason ≠ none) := by
  constructor
  · intro r hr
    obtain ⟨r', hid, hsrc, hmk, hrr, horigin⟩ :=
      keyword_search_results_origin env q terms req resp h r hr
    rcases horigin with ⟨hit, _, rfl⟩ | ⟨hit, reason, rfl⟩
    · exact Or.inl ⟨by rw [hsrc]; rfl, by rw [hrr]; rfl,
        by rw [hmk]; simp [mkKeywordResult]⟩
    · exact Or.inr ⟨by rw [hsrc]; rfl, by rw [hmk]; rfl,
        by rw [hrr]; simp [mkVectorResult]⟩
  · exact ⟨by decide, by decide⟩

/-- C10 witness: the concrete supplemented result of `envSupp` is marked
as vector-sourced. -/
theorem supplement_results_marked_witness :
    ((mkVectorResult hitSupp "未启用LLM评估").source = some "keyword" ∧
      (mkVectorResult hitSupp "未启用LLM评估").relevance_reason = none ∧
      (mkVectorResult hitSupp "未启用LLM评估").matched_keywords ≠ none) ∨
    ((mkVectorResult hitSupp "未启用LLM评估").source = some "vector" ∧
      (mkVectorResult hitSupp "未启用LLM评估").matched_keywords = none ∧
      (mkVectorResult hitSupp "未启用LLM评估").relevance_reason ≠ none) :=
  (supplement_results_marked envSupp "gl" ["gl"] reqKw respSupp rfl).1
    (mkVectorResult hitSupp "未启用LLM评估") (by decide)

/-- C2 counterexample: with input titles ["a", "b"] and service scores
[0, 1], `BGEReranker.rerank` returns the pairs sorted by descending score
— texts ["b", "a"] — so its return value is NOT aligned positionally with
the input title list; consequently the orchestrator assigns document "a"
the score 1 (the service's score for "b") and document "b" the score 0,
not the per-document scores the claim predicts. -/
theorem rerank_alignment_counterexample :
    (BGEReranker_rerank (.scores [0, 1]) ["a", "b"] none).map (fun x => x.text)
      = ["b", "a"] ∧
    ¬ ((BGEReranker_rerank (.scores [0, 1]) ["a", "b"] none).map (fun x => x.text)
      = ["a", "b"]) ∧
    (rerank_results (fun _ _ => .scores [0, 1]) "q" [resA, resB]).map
      (fun r => (r.id, r.score)) = [("a", 1), ("b", 0)] ∧
    ¬ ((rerank_results (fun _ _ => .scores [0, 1]) "q" [resA, resB]).map
      (fun r => (r.id, r.score)) = [("b", 1), ("a", 0)]) :=
  ⟨by decide, by decide, by decide, by decide⟩

/-- C2 (amended): the rerank collaborator returns the (title, score) pairs
sorted by descending score — a permutation of the positional zip of titles
and service scores, not a positionally aligned list; the orchestrator
overwrites the i-th result's score with the i-th returned (rank-ordered)
score and re-sorts descending; if the call fails or returns no scores the
result list passes through unchanged — reranking never removes or adds
results. -/
theorem rerank_rankwise_overwrite (svc : String → List String → RerankOutcome)
    (query : String) (results : List SearchResult) :
    (∀ s : List ℚ,
      (BGEReranker_rerank (.scores s) (results.map (fun r => r.title)) none).Perm
        (((results.map (fun r => r.title)).zip s).map
          (fun p => { text := p.1, score := p.2 : RerankItem })) ∧
      (BGEReranker_rerank (.scores s) (results.map (fun r => r.title)) none).Pairwise
        itemGE) ∧
    (∀ msg, svc query (results.map (fun r => r.title)) = .error msg →
      rerank_results svc query results = results) ∧
    (svc query (results.map (fun r => r.title)) = .badFormat →
      rerank_results svc query results = results) ∧
    (svc query (results.map (fun r => r.title)) = .scores [] →
      rerank_results svc query results = results) ∧
    (rerank_results svc query results).length = results.length ∧
    ((rerank_results svc query results).map (fun r => r.id)).Perm
      (results.map (fun r => r.id)) ∧
    (∀ r ∈ rerank_results svc query results, ∃ r' ∈ results,
      r.id = r'.id ∧ r.title = r'.title ∧ r.source = r'.source ∧
      r.matched_keywords = r'.matched_keywords ∧
      r.relevance_reason = r'.relevance_reason) ∧
    (∀ s : List ℚ, svc query (results.map (fun r => r.title)) = .scores s →
      s ≠ [] → results ≠ [] →
      ScoresNonIncreasing (rerank_results svc query results)) := by
  refine ⟨?_, ?_, ?_, ?_, rerank_results_length svc query results,
    rerank_results_ids_perm svc query results,
    fun r hr => rerank_results_mem svc query results r hr, ?_⟩
  · intro s
    by_cases hres : results = []
    · subst hres
      exact ⟨by simp [BGEReranker_rerank], by simp [BGEReranker_rerank]⟩
    · have hne : results.map (fun r => r.title) ≠ [] := by
        simpa using hres
      constructor
      · unfold BGEReranker_rerank
        rw [if_neg hne]
        exact List.perm_insertionSort itemGE _
      · unfold BGEReranker_rerank
        rw [if_neg hne]
        exact List.sorted_insertionSort itemGE _
  · intro msg hm
    simp [rerank_results, hm, BGEReranker_rerank]
  · intro hm
    simp [rerank_results, hm, BGEReranker_rerank]
  · intro hm
    simp [rerank_results, hm, BGEReranker_rerank]
  · intro s hsvc hs hres
    have hne : results.map (fun r => r.title) ≠ [] := by
      simpa using hres
    have hrrne : BGEReranker_rerank (.scores s) (results.map (fun r => r.title)) none
        ≠ [] := by
      unfold BGEReranker_rerank
      rw [if_neg hne]
      dsimp only
      intro hnil
      have hlen := congrArg List.length hnil
      rw [(List.perm_insertionSort itemGE _).length_eq, List.length_map,
        List.length_zip] at hlen
      simp only [List.length_nil] at hlen
      rcases Nat.min_eq_zero_iff.mp hlen with h0 | h0
      · exact hne (List.eq_nil_of_length_eq_zero (by simpa using h0))
      · exact hs (List.eq_nil_of_length_eq_zero h0)
    unfold rerank_results
    dsimp only
    rw [hsvc, if_neg hrrne]
    exact sortByScoreDesc_sorted _

/-- C2 (amended) witness: concrete reranked pair — the list keeps both
documents and ends up sorted descending. -/
theorem rerank_rankwise_overwrite_witness :
    (rerank_results (fun _ _ => RerankOutcome.scores [0, 1]) "q"
      [resA, resB]).length = [resA, resB].length ∧
    ScoresNonIncreasing (rerank_results (fun _ _ => RerankOutcome.scores [0, 1]) "q"
      [resA, resB]) :=
  ⟨(rerank_rankwise_overwrite (fun _ _ => RerankOutcome.scores [0, 1]) "q"
      [resA, resB]).2.2.2.2.1,
   (rerank_rankwise_overwrite (fun _ _ => RerankOutcome.scores [0, 1]) "q"
      [resA, resB]).2.2.2.2.2.2.2 [0, 1] rfl (by decide) (by decide)⟩

/-- Every result of a successful hybrid branch is, up to a score overwrite
by reranking, a hybrid-constructed result. -/
theorem hybrid_search_results_origin (env : Env) (q : String) (terms : List String)
    (req : SearchRequest) (resp : SearchResponse)
    (h : hybrid_search env q terms req = .ok resp) :
    ∀ r ∈ resp.results, ∃ r',
      r.source = r'.source ∧ r.matched_keywords = r'.matched_keywords ∧
      r.relevance_reason = r'.relevance_reason ∧
      ∃ hit, r' = mkHybridResult terms hit := by
  unfold hybrid_search at h
  split at h
  · simp at h
  · cases hembed : env.embed q with
    | none => rw [hembed] at h; simp at h
    | some emb =>
      rw [hembed] at h
      dsimp only at h
      cases heng : env.engineHybrid (build_hybrid_search_query terms emb req.page
          req.pageSize) with
      | none => rw [heng] at h; simp at h
      | some er =>
        rw [heng] at h
        dsimp only at h
        simp only [Except.ok.injEq] at h
        subst h
        intro r hr
        rw [(attachSearchId_preserves _ _ _ _ _).1] at hr
        dsimp only at hr
        split at hr
        · obtain ⟨r', hr', hid, htitle, hsrc, hmk, hrr⟩ :=
            rerank_results_mem _ _ _ _ hr
          obtain ⟨hit, hmem, rfl⟩ := List.mem_map.mp hr'
          exact ⟨mkHybridResult terms hit, hsrc, hmk, hrr, hit, rfl⟩
        · obtain ⟨hit, hmem, rfl⟩ := List.mem_map.mp hr
          exact ⟨mkHybridResult terms hit, rfl, rfl, rfl, hit, rfl⟩

/-- Vector-branch results never carry matched keywords. -/
theorem vector_search_matched_none (env : Env) (q : String) (terms : List String)
    (req : SearchRequest) (resp : SearchResponse)
    (h : vector_search env q terms req = .ok resp) :
    ∀ r ∈ resp.results, r.matched_keywords = none := by
  unfold vector_search at h
  split at h
  · simp at h
  · cases hembed : env.embed q with
    | none => rw [hembed] at h; simp at h
    | some emb =>
      rw [hembed] at h
      dsimp only at h
      cases heng : env.engineVector (build_vector_search_query emb terms req.page
          req.pageSize) with
      | none => rw [heng] at h; simp at h
      | some er =>
        rw [heng] at h
        dsimp only at h
        simp only [Except.ok.injEq] at h
        subst h
        intro r hr
        rw [(attachSearchId_preserves _ _ _ _ _).1] at hr
        obtain ⟨hit, _, rfl⟩ := List.mem_map.mp hr
        rfl

/-- C4 counterexample: a term that both substring-matches the document and
appears in the engine's highlight markup is listed twice in
`matched_keywords` — the concatenation of the substring matches and the
highlight extractions is not deduplicated across the two sources. -/
theorem matched_keywords_duplicate_counterexample :
    (search envDup reqKw).results.map (fun r => r.matched_keywords)
      = [some ["gl", "gl"]] ∧
    ¬ (["gl", "gl"] : List String).Nodup :=
  ⟨by decide, by decide⟩

/-- C4 (amended): `matched_keywords`, when present, is the concatenation of
two internally duplicate-free lists — the expanded terms that substring-
match the document (distinct whenever the expander output is distinct) and
the deduplicated highlight-extracted terms — but the concatenation itself
may repeat a term that occurs in both parts. -/
theorem matched_keywords_two_nodup_halves (env : Env) (request : SearchRequest)
    (hnd : ∀ qq, (env.expand qq).Nodup) :
    ∀ r ∈ (search env request).results, r.matched_keywords = none ∨
      ∃ a b, r.matched_keywords = some (a ++ b) ∧ a.Nodup ∧ b.Nodup := by
  unfold search
  cases hb : search_body env request with
  | error e => intro r hr; simp [emptyResponse] at hr
  | ok resp =>
    dsimp only
    unfold search_body at hb
    split at hb
    · simp at hb
    · dsimp only at hb
      by_cases hq : env.decode request.query = ""
      · rw [if_pos hq] at hb
        simp only [Except.ok.injEq] at hb
        subst hb
        intro r hr
        simp [emptyResponse] at hr
      · rw [if_neg hq] at hb
        split at hb
        · intro r hr
          obtain ⟨r', hsrc, hmk, hrr, hit, rfl⟩ :=
            hybrid_search_results_origin _ _ _ _ _ hb r hr
          exact Or.inr ⟨_, _, by rw [hmk]; rfl,
            List.Nodup.filter _ (hnd _), List.nodup_dedup _⟩
        · split at hb
          · intro r hr
            exact Or.inl (vector_search_matched_none _ _ _ _ _ hb r hr)
          · intro r hr
            obtain ⟨r', hid, hsrc, hmk, hrr, horigin⟩ :=
              keyword_search_results_origin _ _ _ _ _ hb r hr
            rcases horigin with ⟨hit, _, rfl⟩ | ⟨hit, reason, rfl⟩
            · exact Or.inr ⟨_, _, by rw [hmk]; rfl,
                List.Nodup.filter _ (hnd _), List.nodup_dedup _⟩
            · exact Or.inl (by rw [hmk]; rfl)

/-- C4 (amended) witness: the duplicated list of the counterexample still
splits into two duplicate-free halves. -/
theorem matched_keywords_two_nodup_halves_witness :
    (mkKeywordResult ["gl"] hitDup).matched_keywords = none ∨
    ∃ a b, (mkKeywordResult ["gl"] hitDup).matched_keywords = some (a ++ b) ∧
      a.Nodup ∧ b.Nodup :=
  matched_keywords_two_nodup_halves envDup reqKw
    (fun qq => by simp [envDup, envBase])
    (mkKeywordResult ["gl"] hitDup) (by decide)

end APRetriever
